import Mathlib

set_option allowUnsafeReducibility true
attribute [local semireducible] Rat.mul Rat.add Rat.sub Rat.inv

/-!
Verification of the overlay tool (`bin/overlay/main.go`): a CLI that stamps
white backing rectangles and text strings onto a PDF, driven by a JSON array
of overlay descriptors.  The Go source is shallowly embedded below:

* numeric fields of the overlay record (`float64` in Go) are modelled as `ℚ`;
  every concrete value appearing in the claims (12.5, 7.0, 2.0, 0.5, 40.9, …)
  is exactly representable in binary floating point, so the rational model
  agrees with the Go semantics on all inputs used here;
* the pure helpers (`createWhitePNG`, the data-URI handling inside
  `saveDataURIToTempFile`, the `fmt.Sprintf` parameter builders, JSON
  decoding) are translated directly into executable Lean functions;
* the external collaborators (the pdfcpu watermark library, the OS file
  system) are modelled as an explicit environment of oracles, and `main` is
  translated into a function from that environment and the parsed flags to an
  exit outcome plus a trace of observable events.
-/

/-- Decimal digit character, i.e. `'0' + n` for `n < 10`. -/
def digitChar (n : Nat) : Char := Char.ofNat (48 + n)

/-- Fuel-driven digit recursion for decimal rendering (`fuel` bounds the digit
count; it strictly exceeds it on every call from `natToStr`). -/
def natToStrAux : Nat → Nat → String
  | 0, _ => ""
  | fuel + 1, n =>
    if n < 10 then String.mk [digitChar n]
    else natToStrAux fuel (n / 10) ++ String.mk [digitChar (n % 10)]

/-- Decimal rendering of a natural number, as produced by Go's `fmt` verbs
(`%d`, and the integer parts of `%f`). -/
def natToStr (n : Nat) : String := natToStrAux (n + 1) n

/-- Left-pad a string with `'0'` up to length `d` (used for the fractional
digits of fixed-point formatting). -/
def padZeros (d : Nat) (s : String) : String :=
  if s.length < d then String.mk (List.replicate (d - s.length) '0') ++ s else s

/-- Fixed-point decimal rendering of a nonnegative rational with `d` digits
after the point, rounding to nearest.  Models Go's `%.<d>f` formatting of a
nonnegative `float64`; exact whenever the value's scaled numerator is an
integer (true of every value these claims touch, so no rounding ever fires). -/
def formatFixedPos (d : Nat) (q : ℚ) : String :=
  let n : Nat := (q * (10 : ℚ) ^ d + 1 / 2).floor.toNat
  natToStr (n / 10 ^ d) ++ "." ++ padZeros d (natToStr (n % 10 ^ d))

/-- Fixed-point decimal rendering of a rational: Go's `%.<d>f`. -/
def formatFixed (d : Nat) (q : ℚ) : String :=
  if q < 0 then "-" ++ formatFixedPos d (-q) else formatFixedPos d q

/-- Go's `%f` (default precision 6). -/
def f6 (q : ℚ) : String := formatFixed 6 q

/-- Go's `%.2f`. -/
def f2 (q : ℚ) : String := formatFixed 2 q

/-- Go's `%q` on a string; modelled for texts containing no characters that
need escaping (true of every text used in this development). -/
def goQuote (s : String) : String := "\"" ++ s ++ "\""

/-- Go conversion `int(f)` from `float64`: truncation toward zero. -/
def goInt (q : ℚ) : Int := if q < 0 then -((-q).floor) else q.floor

/-- One overlay descriptor: `OverlayRectText` from `main.go` (JSON tags
`text,x,y,width,height,scale`; the numeric fields are `float64`, modelled as
`ℚ`). -/
structure OverlayRectText where
  text : String
  x : ℚ
  y : ℚ
  width : ℚ
  height : ℚ
  scale : ℚ
deriving DecidableEq, Repr

/-- The zero value of `OverlayRectText` (what `var overlays []OverlayRectText`
decoding starts each element from). -/
def zeroOverlay : OverlayRectText := ⟨"", 0, 0, 0, 0, 0⟩

/-- The rectangle-pass parameter string:
`fmt.Sprintf("pos:bl, offset:%f %f, scale:%f abs, rot:0, mode:0", ov.X, ov.Y, ov.Scale)`. -/
def rectParams (ov : OverlayRectText) : String :=
  "pos:bl, offset:" ++ f6 ov.x ++ " " ++ f6 ov.y ++ ", scale:" ++ f6 ov.scale ++
    " abs, rot:0, mode:0"

/-- The text-pass parameter string:
`fmt.Sprintf("pos:bl, offset:%f %f, rot:0, scale:%f, fillc:#000000, mode:0", ov.X, ov.Y, ov.Scale/4)`. -/
def textParams (ov : OverlayRectText) : String :=
  "pos:bl, offset:" ++ f6 ov.x ++ " " ++ f6 ov.y ++ ", rot:0, scale:" ++
    f6 (ov.scale / 4) ++ ", fillc:#000000, mode:0"

/-- The per-overlay progress line:
`log.Printf("Processing overlay %d: text=%q at (%.2f, %.2f), rect=%.2fx%.2f, scale=%.2f\n", …)`. -/
def progressLine (i : Nat) (ov : OverlayRectText) : String :=
  "Processing overlay " ++ natToStr i ++ ": text=" ++ goQuote ov.text ++ " at (" ++
    f2 ov.x ++ ", " ++ f2 ov.y ++ "), rect=" ++ f2 ov.width ++ "x" ++ f2 ov.height ++
    ", scale=" ++ f2 ov.scale ++ "\n"

/-- `log.Fatalf("Could not read JSON file: %v\n", err)`. -/
def readJsonFailMsg (e : String) : String := "Could not read JSON file: " ++ e ++ "\n"

/-- `log.Fatalf("JSON parse error: %v\n", err)`. -/
def jsonParseFailMsg (e : String) : String := "JSON parse error: " ++ e ++ "\n"

/-- `log.Fatalf("Could not read PDF file: %v\n", err)`. -/
def readPdfFailMsg (e : String) : String := "Could not read PDF file: " ++ e ++ "\n"

/-- `log.Fatalf("Failed to create white PNG: %v\n", err)` — note: no overlay index. -/
def createPngFailMsg (e : String) : String := "Failed to create white PNG: " ++ e ++ "\n"

/-- `log.Fatalf("Failed to save white PNG: %v\n", err)` — note: no overlay index. -/
def savePngFailMsg (e : String) : String := "Failed to save white PNG: " ++ e ++ "\n"

/-- `log.Fatalf("Failed to parse image watermark details for overlay %d: %v\n", i, err)`. -/
def rectParseFailMsg (i : Nat) (e : String) : String :=
  "Failed to parse image watermark details for overlay " ++ natToStr i ++ ": " ++ e ++ "\n"

/-- `log.Fatalf("Failed adding white rectangle for overlay %d: %v\n", i, err)`. -/
def rectApplyFailMsg (i : Nat) (e : String) : String :=
  "Failed adding white rectangle for overlay " ++ natToStr i ++ ": " ++ e ++ "\n"

/-- `log.Fatalf("Error creating text watermark for overlay %d: %v\n", i, err)`. -/
def textParseFailMsg (i : Nat) (e : String) : String :=
  "Error creating text watermark for overlay " ++ natToStr i ++ ": " ++ e ++ "\n"

/-- `log.Fatalf("Failed adding text for overlay %d: %v\n", i, err)`. -/
def textApplyFailMsg (i : Nat) (e : String) : String :=
  "Failed adding text for overlay " ++ natToStr i ++ ": " ++ e ++ "\n"

/-- `log.Fatalf("Could not write output PDF: %v\n", err)`. -/
def writeOutFailMsg (e : String) : String := "Could not write output PDF: " ++ e ++ "\n"

/-- `fmt.Printf("Done! Overlays applied. Result saved to %q\n", *outPath)`. -/
def doneMsg (out : String) : String :=
  "Done! Overlays applied. Result saved to " ++ goQuote out ++ "\n"

/-- The usage line printed by `fmt.Println` when a required flag is missing. -/
def usageLine : String :=
  "Usage: overlay-rect-text -json=overlays.json -pdf=original.pdf -out=modified.pdf\n"

/-! ### JSON values and the text-level parser

`main.go` decodes the overlay file with `json.Unmarshal(data, &overlays)`.
The Go standard library's JSON grammar is modelled here: a recursive-descent
parser from the input characters to a `Json` value, followed by the
`encoding/json` struct-decoding rules for `[]OverlayRectText`.  JSON numbers
are modelled as `ℚ` (Go converts them to `float64`; every number used in this
development is exactly representable). -/

/-- A parsed JSON value. -/
inductive Json where
  | null
  | bool (b : Bool)
  | num (q : ℚ)
  | str (s : String)
  | arr (elems : List Json)
  | obj (fields : List (String × Json))

/-- JSON whitespace (space, tab, newline, carriage return). -/
def isWsChar (c : Char) : Bool := c = ' ' || c = '\t' || c = '\n' || c = '\r'

/-- Skip leading JSON whitespace. -/
def skipWs : List Char → List Char
  | [] => []
  | c :: cs => if isWsChar c then skipWs cs else c :: cs

/-- Take the maximal run of decimal digits from the front of the input. -/
def takeDigits : List Char → List Char × List Char
  | [] => ([], [])
  | c :: cs =>
    if c.isDigit then
      let (ds, r) := takeDigits cs
      (c :: ds, r)
    else ([], c :: cs)

/-- Value of a run of decimal digit characters. -/
def digitsToNat (ds : List Char) : Nat :=
  ds.foldl (fun acc c => acc * 10 + (c.toNat - 48)) 0

/-- Integer part of a JSON number: `0`, or a nonzero digit followed by digits
(leading zeros are invalid JSON, as enforced by Go's scanner). -/
def parseIntPart : List Char → Except String (Nat × List Char)
  | [] => .error "unexpected end of JSON input"
  | c :: cs =>
    if c = '0' then
      match cs with
      | d :: _ => if d.isDigit then .error "invalid number literal" else .ok (0, cs)
      | [] => .ok (0, [])
    else if c.isDigit then
      let (ds, r) := takeDigits cs
      .ok (digitsToNat (c :: ds), r)
    else .error "invalid character in number literal"

/-- Fractional part: after a `'.'` there must be at least one digit. -/
def parseFracPart : List Char → Except String (ℚ × List Char)
  | '.' :: r =>
    match takeDigits r with
    | ([], _) => .error "invalid number literal"
    | (ds, r2) => .ok ((digitsToNat ds : ℚ) / (10 : ℚ) ^ ds.length, r2)
  | s => .ok (0, s)

/-- Exponent part: `e`/`E`, optional sign, at least one digit. -/
def parseExpPart : List Char → Except String (ℚ × List Char)
  | c :: r =>
    if c = 'e' || c = 'E' then
      let (negE, r1) : Bool × List Char :=
        match r with
        | '-' :: r2 => (true, r2)
        | '+' :: r2 => (false, r2)
        | _ => (false, r)
      match takeDigits r1 with
      | ([], _) => .error "invalid number literal"
      | (ds, r2) =>
        let e := digitsToNat ds
        .ok (if negE then 1 / (10 : ℚ) ^ e else (10 : ℚ) ^ e, r2)
    else .ok (1, c :: r)
  | [] => .ok (1, [])

/-- A JSON number: `-? int frac? exp?`. -/
def parseNumber (s : List Char) : Except String (ℚ × List Char) :=
  let (neg, s1) : Bool × List Char :=
    match s with
    | '-' :: r => (true, r)
    | _ => (false, s)
  match parseIntPart s1 with
  | .error e => .error e
  | .ok (ip, r1) =>
    match parseFracPart r1 with
    | .error e => .error e
    | .ok (fq, r2) =>
      match parseExpPart r2 with
      | .error e => .error e
      | .ok (ex, r3) =>
        let mag := ((ip : ℚ) + fq) * ex
        .ok (if neg then -mag else mag, r3)

/-- Value of a hexadecimal digit character, if any. -/
def hexVal (c : Char) : Option Nat :=
  if '0' ≤ c ∧ c ≤ '9' then some (c.toNat - 48)
  else if 'a' ≤ c ∧ c ≤ 'f' then some (c.toNat - 87)
  else if 'A' ≤ c ∧ c ≤ 'F' then some (c.toNat - 55)
  else none

/-- Simple (single-character) JSON string escapes. -/
def escChar (e : Char) : Option Char :=
  if e = '"' then some '"'
  else if e = '\\' then some '\\'
  else if e = '/' then some '/'
  else if e = 'b' then some (Char.ofNat 8)
  else if e = 'f' then some (Char.ofNat 12)
  else if e = 'n' then some '\n'
  else if e = 'r' then some '\r'
  else if e = 't' then some '\t'
  else none

/-- Body of a JSON string literal (the opening quote already consumed):
returns the decoded characters and the rest of the input.  Handles the JSON
escapes `\" \\ \/ \b \f \n \r \t \uXXXX`. -/
def parseStringBody : List Char → Except String (List Char × List Char)
  | [] => .error "unexpected end of JSON input"
  | '"' :: r => .ok ([], r)
  | '\\' :: 'u' :: h1 :: h2 :: h3 :: h4 :: r2 =>
    match hexVal h1, hexVal h2, hexVal h3, hexVal h4 with
    | some a, some b, some c, some d =>
      match parseStringBody r2 with
      | .error m => .error m
      | .ok (cs, rest) => .ok (Char.ofNat (a * 4096 + b * 256 + c * 16 + d) :: cs, rest)
    | _, _, _, _ => .error "invalid unicode escape"
  | '\\' :: e :: r =>
    match escChar e with
    | none => .error "invalid escape character in string"
    | some c =>
      match parseStringBody r with
      | .error m => .error m
      | .ok (cs, rest) => .ok (c :: cs, rest)
  | c :: r =>
    match parseStringBody r with
    | .error m => .error m
    | .ok (cs, rest) => .ok (c :: cs, rest)

/-- The opening-brace character `'\x7b'`. -/
def lbraceChar : Char := Char.ofNat 123

/-- The closing-brace character `'\x7d'`. -/
def rbraceChar : Char := Char.ofNat 125

mutual

/-- Parse one JSON value.  `fuel` strictly decreases on every nested call;
`parseJsonText` supplies more fuel than any input can consume. -/
def parseValue : Nat → List Char → Except String (Json × List Char)
  | 0, _ => .error "JSON too deeply nested"
  | fuel + 1, s =>
    match skipWs s with
    | [] => .error "unexpected end of JSON input"
    | 'n' :: r =>
      match r with
      | 'u' :: 'l' :: 'l' :: r2 => .ok (.null, r2)
      | _ => .error "invalid character in literal"
    | 't' :: r =>
      match r with
      | 'r' :: 'u' :: 'e' :: r2 => .ok (.bool true, r2)
      | _ => .error "invalid character in literal"
    | 'f' :: r =>
      match r with
      | 'a' :: 'l' :: 's' :: 'e' :: r2 => .ok (.bool false, r2)
      | _ => .error "invalid character in literal"
    | '"' :: r =>
      match parseStringBody r with
      | .error m => .error m
      | .ok (cs, rest) => .ok (.str (String.mk cs), rest)
    | '[' :: r =>
      match skipWs r with
      | ']' :: r2 => .ok (.arr [], r2)
      | _ => match parseArrayItems fuel r with
        | .error m => .error m
        | .ok (xs, rest) => .ok (.arr xs, rest)
    | c :: r =>
      if c = lbraceChar then
        match skipWs r with
        | d :: r2 =>
          if d = rbraceChar then .ok (.obj [], r2)
          else match parseObjectItems fuel (d :: r2) with
            | .error m => .error m
            | .ok (kvs, rest) => .ok (.obj kvs, rest)
        | [] => .error "unexpected end of JSON input"
      else if c = '-' || c.isDigit then
        match parseNumber (c :: r) with
        | .error m => .error m
        | .ok (q, rest) => .ok (.num q, rest)
      else .error "invalid character looking for beginning of value"

/-- Parse the comma-separated items of a nonempty JSON array, up to and
including the closing bracket. -/
def parseArrayItems : Nat → List Char → Except String (List Json × List Char)
  | 0, _ => .error "JSON too deeply nested"
  | fuel + 1, s =>
    match parseValue fuel s with
    | .error m => .error m
    | .ok (v, rest) =>
      match skipWs rest with
      | ',' :: r2 =>
        match parseArrayItems fuel r2 with
        | .error m => .error m
        | .ok (xs, rest2) => .ok (v :: xs, rest2)
      | ']' :: r2 => .ok ([v], r2)
      | _ => .error "invalid character after array element"

/-- Parse the comma-separated members of a nonempty JSON object, up to and
including the closing brace. -/
def parseObjectItems : Nat → List Char → Except String (List (String × Json) × List Char)
  | 0, _ => .error "JSON too deeply nested"
  | fuel + 1, s =>
    match skipWs s with
    | '"' :: r =>
      match parseStringBody r with
      | .error m => .error m
      | .ok (kcs, r2) =>
        match skipWs r2 with
        | ':' :: r3 =>
          match parseValue fuel r3 with
          | .error m => .error m
          | .ok (v, r4) =>
            match skipWs r4 with
            | ',' :: r5 =>
              match parseObjectItems fuel r5 with
              | .error m => .error m
              | .ok (kvs, rest) => .ok ((String.mk kcs, v) :: kvs, rest)
            | d :: r5 =>
              if d = rbraceChar then .ok ([(String.mk kcs, v)], r5)
              else .error "invalid character after object member"
            | [] => .error "unexpected end of JSON input"
        | _ => .error "invalid character after object key"
    | _ => .error "invalid character looking for object key"

end

/-- Parse a complete JSON document: one value, with nothing but whitespace
after it (Go's `json.Unmarshal` rejects trailing data). -/
def parseJsonText (s : String) : Except String Json :=
  match parseValue (2 * s.data.length + 4) s.data with
  | .error e => .error e
  | .ok (j, rest) =>
    match skipWs rest with
    | [] => .ok j
    | _ => .error "invalid character after top-level value"

/-! ### Decoding a `Json` value into `[]OverlayRectText`

Models the `encoding/json` unmarshalling rules used by
`json.Unmarshal(data, &overlays)`: the top level must be an array (or `null`,
which yields the nil slice); each element must be an object (or `null`);
object keys match the struct's JSON tags case-insensitively; unknown keys are
ignored; a `null` field value leaves the field at its zero value; a wrongly
typed field value is an error.  Field values overwrite earlier ones when a
key repeats (last one wins). -/

/-- ASCII-lowercase a string character-wise (Go's case-insensitive field-name
matching). -/
def lowerAscii (s : String) : String := String.mk (s.data.map Char.toLower)

/-- Decode a JSON value into a `float64` (here `ℚ`) field: numbers are taken
as-is — no range or sign validation — `null` leaves the old value, and any
other shape is a type error. -/
def numField (v : Json) (old : ℚ) : Except String ℚ :=
  match v with
  | .num q => .ok q
  | .null => .ok old
  | _ => .error "cannot unmarshal value into Go struct field of type float64"

/-- Apply one JSON object member to an overlay record under the struct's
JSON tags (`text,x,y,width,height,scale`); unknown keys are ignored. -/
def setField (ov : OverlayRectText) (k : String) (v : Json) : Except String OverlayRectText :=
  let key := lowerAscii k
  if key = "text" then
    match v with
    | .str s => .ok { ov with text := s }
    | .null => .ok ov
    | _ => .error "cannot unmarshal value into Go struct field of type string"
  else if key = "x" then
    match numField v ov.x with
    | .error e => .error e
    | .ok q => .ok { ov with x := q }
  else if key = "y" then
    match numField v ov.y with
    | .error e => .error e
    | .ok q => .ok { ov with y := q }
  else if key = "width" then
    match numField v ov.width with
    | .error e => .error e
    | .ok q => .ok { ov with width := q }
  else if key = "height" then
    match numField v ov.height with
    | .error e => .error e
    | .ok q => .ok { ov with height := q }
  else if key = "scale" then
    match numField v ov.scale with
    | .error e => .error e
    | .ok q => .ok { ov with scale := q }
  else .ok ov

/-- Fold the members of a JSON object over an overlay record. -/
def decodeFields : OverlayRectText → List (String × Json) → Except String OverlayRectText
  | ov, [] => .ok ov
  | ov, (k, v) :: rest =>
    match setField ov k v with
    | .error e => .error e
    | .ok ov2 => decodeFields ov2 rest

/-- Decode one array element into an overlay record, starting from the zero
value. -/
def decodeOverlayRecord : Json → Except String OverlayRectText
  | .null => .ok zeroOverlay
  | .obj kvs => decodeFields zeroOverlay kvs
  | _ => .error "cannot unmarshal value into Go value of type OverlayRectText"

/-- Decode every element of the overlay array. -/
def decodeOverlayList : List Json → Except String (List OverlayRectText)
  | [] => .ok []
  | j :: rest =>
    match decodeOverlayRecord j with
    | .error e => .error e
    | .ok ov =>
      match decodeOverlayList rest with
      | .error e => .error e
      | .ok ovs => .ok (ov :: ovs)

/-- Decode the top-level JSON value into `[]OverlayRectText`. -/
def decodeOverlays : Json → Except String (List OverlayRectText)
  | .null => .ok []
  | .arr xs => decodeOverlayList xs
  | _ => .error "cannot unmarshal value into Go value of type []OverlayRectText"

/-- `json.Unmarshal(data, &overlays)`: text-level parse followed by struct
decoding. -/
def parseOverlays (s : String) : Except String (List OverlayRectText) :=
  match parseJsonText s with
  | .error e => .error e
  | .ok j => decodeOverlays j

/-! ### Base64 (Go `encoding/base64` StdEncoding)

`createWhitePNG` returns `"data:image/png;base64," + StdEncoding.EncodeToString(pngBytes)`
and `saveDataURIToTempFile` strips the prefix and calls `StdEncoding.DecodeString`.
Both directions are modelled over byte lists (`Nat`s below 256).  The decoder
does not reject non-canonical trailing padding bits (neither does Go's
non-strict `StdEncoding`); the newline-skipping of Go's decoder is omitted as
no input here contains newlines. -/

/-- The standard base64 alphabet. -/
def b64Alphabet : List Char :=
  "ABCDEFGHIJKLMNOPQRSTUVWXYZabcdefghijklmnopqrstuvwxyz0123456789+/".data

/-- Character for a 6-bit group. -/
def b64Char (n : Nat) : Char := b64Alphabet.getD n 'A'

/-- Index of a character in the base64 alphabet, if any. -/
def b64Index (c : Char) : Option Nat := b64Alphabet.findIdx? (fun a => a = c)

/-- Base64-encode a byte list, three bytes to four characters, with `'='`
padding on the final partial group. -/
def b64EncodeList : List Nat → List Char
  | [] => []
  | [a] => [b64Char (a / 4), b64Char (a % 4 * 16), '=', '=']
  | [a, b] => [b64Char (a / 4), b64Char (a % 4 * 16 + b / 16), b64Char (b % 16 * 4), '=']
  | a :: b :: c :: rest =>
    b64Char (a / 4) :: b64Char (a % 4 * 16 + b / 16) :: b64Char (b % 16 * 4 + c / 64) ::
      b64Char (c % 64) :: b64EncodeList rest

/-- `base64.StdEncoding.EncodeToString`. -/
def base64Encode (bs : List Nat) : String := String.mk (b64EncodeList bs)

/-- Base64-decode a character list, four characters to three bytes; `'='`
padding is accepted only at the end of the input, and the input length must
be a multiple of four (as in Go's `StdEncoding.DecodeString`). -/
def b64DecodeList : List Char → Except String (List Nat)
  | [] => .ok []
  | c1 :: c2 :: c3 :: c4 :: rest =>
    match b64Index c1, b64Index c2 with
    | some n1, some n2 =>
      if c3 = '=' then
        if c4 = '=' ∧ rest = [] then .ok [n1 * 4 + n2 / 16]
        else .error "illegal base64 data"
      else
        match b64Index c3 with
        | some n3 =>
          if c4 = '=' then
            if rest = [] then .ok [n1 * 4 + n2 / 16, n2 % 16 * 16 + n3 / 4]
            else .error "illegal base64 data"
          else
            match b64Index c4 with
            | some n4 =>
              match b64DecodeList rest with
              | .error e => .error e
              | .ok tail =>
                .ok ((n1 * 4 + n2 / 16) :: (n2 % 16 * 16 + n3 / 4) :: (n3 % 4 * 64 + n4) :: tail)
            | none => .error "illegal base64 data"
        | none => .error "illegal base64 data"
    | _, _ => .error "illegal base64 data"
  | _ => .error "illegal base64 data"

/-! ### The white raster stamp (`createWhitePNG`)

`createWhitePNG(w, h)` builds `image.NewRGBA(image.Rect(0, 0, w, h))` — a
zero-initialised `w × h` RGBA pixel buffer — sets every pixel to
`color.White` (which `RGBA.Set` converts to the 8-bit samples
`(255, 255, 255, 255)`), PNG-encodes it, and returns
`"data:image/png;base64," + base64(pngBytes)`. -/

/-- One RGBA pixel (8-bit samples, as stored by Go's `image.RGBA`). -/
structure RGBA where
  r : Nat
  g : Nat
  b : Nat
  a : Nat
deriving DecidableEq, Repr

/-- The zero-initialised pixel of a fresh `image.NewRGBA` buffer. -/
def rgbaZero : RGBA := ⟨0, 0, 0, 0⟩

/-- `color.White` after conversion to `image.RGBA`'s 8-bit samples: opaque
white. -/
def rgbaWhite : RGBA := ⟨255, 255, 255, 255⟩

/-- An RGBA image: dimensions plus the pixel buffer as rows of pixels
(row-major, like `image.RGBA`'s `Pix` slice). -/
structure RGBAImage where
  width : Nat
  height : Nat
  rows : List (List RGBA)
deriving DecidableEq, Repr

/-- Replace the element at an index of a list (out-of-range indices leave the
list unchanged). -/
def listSet (x : α) : Nat → List α → List α
  | _, [] => []
  | 0, _ :: rest => x :: rest
  | n + 1, a :: rest => a :: listSet x n rest

/-- Update the element at an index of a list with a function (out-of-range
indices leave the list unchanged). -/
def listModify (f : α → α) : Nat → List α → List α
  | _, [] => []
  | 0, a :: rest => f a :: rest
  | n + 1, a :: rest => a :: listModify f n rest

/-- `image.NewRGBA(image.Rect(0, 0, w, h))` for `w, h ≥ 0`: a zeroed `w × h`
buffer (for negative arguments `image.Rect` canonicalises, giving the
absolute dimensions; the fill loops below run zero times then, matching Go's
`for x := 0; x < w` loops). -/
def newRGBA (w h : Int) : RGBAImage :=
  ⟨w.natAbs, h.natAbs, List.replicate h.natAbs (List.replicate w.natAbs rgbaZero)⟩

/-- `img.Set(x, y, c)` of `image.RGBA`: bounds-checked pixel store. -/
def imgSet (img : RGBAImage) (x y : Nat) (c : RGBA) : RGBAImage :=
  if x < img.width ∧ y < img.height then
    { img with rows := listModify (listSet c x) y img.rows }
  else img

/-- Pixel read (used only by the verification statements, with the zero pixel
as the out-of-range default). -/
def imgPix (img : RGBAImage) (x y : Nat) : RGBA := (img.rows.getD y []).getD x rgbaZero

/-- The double fill loop of `createWhitePNG`:
`for y := 0; y < h; y++ { for x := 0; x < w; x++ { img.Set(x, y, color.White) } }`. -/
def createWhitePNGImage (w h : Int) : RGBAImage :=
  (List.range h.toNat).foldl
    (fun acc y => (List.range w.toNat).foldl (fun acc2 x => imgSet acc2 x y rgbaWhite) acc)
    (newRGBA w h)

/-- Byte serialization of the pixel buffer standing in for the PNG container
produced by Go's `image/png` encoder: the dimensions (two little-endian bytes
each) followed by the raw RGBA samples.  The compressed PNG byte stream
itself is external-library output; no claim depends on its exact bytes, only
on the encode being deterministic and the bytes surviving the base64 round
trip, which this stand-in preserves. -/
def pngSerialize (img : RGBAImage) : List Nat :=
  [img.width % 256, img.width / 256 % 256, img.height % 256, img.height / 256 % 256] ++
    img.rows.flatMap (fun row => row.flatMap (fun p => [p.r % 256, p.g % 256, p.b % 256, p.a % 256]))

/-- Modelled from the Go standard library `image/png` encoder used by
`createWhitePNG`: `png.Encode` rejects images with non-positive width or
height ("the PNG spec section 11.2.2 says that zero is invalid") and
otherwise deterministically encodes the pixel buffer. -/
def pngEncode (img : RGBAImage) : Except String (List Nat) :=
  if img.width = 0 ∨ img.height = 0 then .error "png: invalid image size"
  else .ok (pngSerialize img)

/-- The data-URI prefix used by `createWhitePNG` and checked by
`saveDataURIToTempFile`. -/
def pngDataURIPre : String := "data:image/png;base64,"

/-- `createWhitePNG(w, h)`: build the white image, PNG-encode it, and return
the base64 data URI. -/
def createWhitePNG (w h : Int) : Except String String :=
  match pngEncode (createWhitePNGImage w h) with
  | .error e => .error e
  | .ok bytes => .ok (pngDataURIPre ++ base64Encode bytes)

/-- Strip an expected leading character sequence, or `none`: combines the
`strings.HasPrefix` test and the `dataURI[len(prefix):]` slice of
`saveDataURIToTempFile`. -/
def dropPre : List Char → List Char → Option (List Char)
  | [], s => some s
  | p :: ps, c :: cs => if c = p then dropPre ps cs else none
  | _ :: _, [] => none

/-- The pure core of `saveDataURIToTempFile`: check the PNG data-URI prefix
and base64-decode the remainder; the result is the byte list the Go function
writes to the temporary file. -/
def dataURIDecode (dataURI : String) : Except String (List Nat) :=
  match dropPre pngDataURIPre.data dataURI.data with
  | none => .error "not a valid PNG data URI"
  | some rest =>
    match b64DecodeList rest with
    | .error e => .error ("base64 decode error: " ++ e)
    | .ok bytes => .ok bytes

/-! ### The driver (`main`)

The external collaborators are collected in an `Env` of oracles:

* `readFile` — `ioutil.ReadFile` (file contents as an opaque byte string);
* `tempStore` — `os.CreateTemp` plus `tmpFile.Write` inside
  `saveDataURIToTempFile`: stores a byte list, returning the temp path;
* `parseImageWM` / `parseTextWM` — `pdfcpu.ParseImageWatermarkDetails` /
  `pdfcpu.ParseTextWatermarkDetails` (with `onTop = true` and `types.POINTS`,
  both constant in the source);
* `applyWM` — `api.AddWatermarks` on the in-memory PDF buffer;
* `writeFile` — `os.WriteFile(outPath, buffer, 0644)`.

`main` itself becomes `runMain : Env → Flags → Outcome × List Event`: the
outcome is the process exit (normal, usage exit, or `log.Fatalf`), and the
event list records the observable file reads, temp-file writes, watermark
invocations, the final output write and console lines, in order.
`io.ReadAll` on an in-memory `bytes.Buffer` cannot fail and is not a failure
point of the model. -/

/-- One invocation of the external watermark facility: the rectangle pass
carries the temp-file path of the raster stamp and the image parameter
string; the text pass carries the overlay text and the text parameter
string. -/
inductive WMCall where
  | rect (path : String) (params : String)
  | text (s : String) (params : String)
deriving DecidableEq, Repr

/-- Observable effects of a run, in program order. -/
inductive Event where
  | readFile (path : String)
  | log (line : String)
  | tempFile (path : String) (bytes : List Nat)
  | wmCall (c : WMCall)
  | writeFile (path : String) (content : String)
  | stdout (line : String)
deriving DecidableEq, Repr

/-- The external-collaborator oracles. -/
structure Env where
  readFile : String → Except String String
  tempStore : List Nat → Except String String
  parseImageWM : String → String → Except String Unit
  parseTextWM : String → String → Except String Unit
  applyWM : WMCall → String → Except String String
  writeFile : String → String → Except String Unit

/-- How the process ends: normal exit, the usage `os.Exit(1)`, or a
`log.Fatalf` with the given message (`log.Fatalf` exits with status 1). -/
inductive Outcome where
  | ok
  | usageExit
  | fatal (msg : String)
deriving DecidableEq, Repr

/-- The process exit status of an outcome. -/
def Outcome.exitCode : Outcome → Nat
  | .ok => 0
  | .usageExit => 1
  | .fatal _ => 1

/-- The parsed command-line flags (after `flag.Parse()`; the `flag` package
defaults are `""`, `""` and `"out.pdf"`). -/
structure Flags where
  jsonPath : String
  pdfPath : String
  outPath : String
deriving DecidableEq, Repr

/-- `saveDataURIToTempFile`, with the OS part supplied by the environment:
decode the data URI and store the PNG bytes in a temp file, returning the
temp path together with the bytes written. -/
def saveDataURIToTempFile (env : Env) (dataURI : String) : Except String (String × List Nat) :=
  match dataURIDecode dataURI with
  | .error e => .error e
  | .ok bytes =>
    match env.tempStore bytes with
    | .error e => .error e
    | .ok path => .ok (path, bytes)

/-- The rectangle pass of one loop iteration (`if ov.Width > 0 && ov.Height > 0`):
white-PNG creation, temp-file save, parameter parse and watermark
application.  Returns the events emitted and either the new PDF buffer or
the `log.Fatalf` message. -/
def rectPass (env : Env) (i : Nat) (ov : OverlayRectText) (pdf : String) :
    List Event × Except String String :=
  if 0 < ov.width ∧ 0 < ov.height then
    match createWhitePNG (goInt ov.width) (goInt ov.height) with
    | .error e => ([], .error (createPngFailMsg e))
    | .ok dataURI =>
      match saveDataURIToTempFile env dataURI with
      | .error e => ([], .error (savePngFailMsg e))
      | .ok (path, bytes) =>
        match env.parseImageWM path (rectParams ov) with
        | .error e => ([Event.tempFile path bytes], .error (rectParseFailMsg i e))
        | .ok _ =>
          match env.applyWM (.rect path (rectParams ov)) pdf with
          | .error e =>
            ([Event.tempFile path bytes, Event.wmCall (.rect path (rectParams ov))],
              .error (rectApplyFailMsg i e))
          | .ok pdf2 =>
            ([Event.tempFile path bytes, Event.wmCall (.rect path (rectParams ov))], .ok pdf2)
  else ([], .ok pdf)

/-- The text pass of one loop iteration: parameter parse and watermark
application. -/
def textPass (env : Env) (i : Nat) (ov : OverlayRectText) (pdf : String) :
    List Event × Except String String :=
  match env.parseTextWM ov.text (textParams ov) with
  | .error e => ([], .error (textParseFailMsg i e))
  | .ok _ =>
    match env.applyWM (.text ov.text (textParams ov)) pdf with
    | .error e => ([Event.wmCall (.text ov.text (textParams ov))], .error (textApplyFailMsg i e))
    | .ok pdf2 => ([Event.wmCall (.text ov.text (textParams ov))], .ok pdf2)

/-- One iteration of the overlay loop: progress line, rectangle pass (when
requested), then text pass. -/
def processOverlay (env : Env) (i : Nat) (ov : OverlayRectText) (pdf : String) :
    List Event × Except String String :=
  match rectPass env i ov pdf with
  | (evs1, .error m) => (Event.log (progressLine i ov) :: evs1, .error m)
  | (evs1, .ok pdf1) =>
    match textPass env i ov pdf1 with
    | (evs2, r2) => (Event.log (progressLine i ov) :: (evs1 ++ evs2), r2)

/-- The overlay loop `for i, ov := range overlays`, folding the PDF buffer. -/
def runLoop (env : Env) : List OverlayRectText → Nat → String → List Event × Except String String
  | [], _, pdf => ([], .ok pdf)
  | ov :: rest, i, pdf =>
    match processOverlay env i ov pdf with
    | (evs, .error m) => (evs, .error m)
    | (evs, .ok pdf2) =>
      match runLoop env rest (i + 1) pdf2 with
      | (evs2, r2) => (evs ++ evs2, r2)

/-- `main`: flag validation, JSON read and decode, PDF read, the overlay
loop, and the final output write. -/
def runMain (env : Env) (fl : Flags) : Outcome × List Event :=
  if fl.jsonPath = "" ∨ fl.pdfPath = "" then (.usageExit, [.stdout usageLine])
  else
    match env.readFile fl.jsonPath with
    | .error e => (.fatal (readJsonFailMsg e), [.readFile fl.jsonPath])
    | .ok jsonData =>
      match parseOverlays jsonData with
      | .error e => (.fatal (jsonParseFailMsg e), [.readFile fl.jsonPath])
      | .ok overlays =>
        match env.readFile fl.pdfPath with
        | .error e => (.fatal (readPdfFailMsg e), [.readFile fl.jsonPath, .readFile fl.pdfPath])
        | .ok pdf0 =>
          match runLoop env overlays 0 pdf0 with
          | (evs, .error m) =>
            (.fatal m, Event.readFile fl.jsonPath :: Event.readFile fl.pdfPath :: evs)
          | (evs, .ok pdfF) =>
            match env.writeFile fl.outPath pdfF with
            | .error e =>
              (.fatal (writeOutFailMsg e),
                Event.readFile fl.jsonPath :: Event.readFile fl.pdfPath :: evs)
            | .ok _ =>
              (.ok, Event.readFile fl.jsonPath :: Event.readFile fl.pdfPath :: evs ++
                [.writeFile fl.outPath pdfF, .stdout (doneMsg fl.outPath)])

/-- The watermark invocations recorded in an event trace, in order. -/
def wmCalls (evs : List Event) : List WMCall :=
  evs.filterMap fun e =>
    match e with
    | .wmCall c => some c
    | _ => none

/-- Does an event write the output file? -/
def isWriteEvent : Event → Bool
  | .writeFile _ _ => true
  | _ => false

/-- Does an event create a temp raster file? -/
def isTempFileEvent : Event → Bool
  | .tempFile _ _ => true
  | _ => false

/-- Does an event touch the file system at all (read, temp write, or output
write)? -/
def isFileEvent : Event → Bool
  | .readFile _ => true
  | .tempFile _ _ => true
  | .writeFile _ _ => true
  | _ => false

/-! ### Helper lemmas -/

/-- Decoding a base64 alphabet character recovers its 6-bit value. -/
theorem b64Index_b64Char : ∀ k, k < 64 → b64Index (b64Char k) = some k := by decide

/-- Base64 alphabet characters are never the padding character. -/
theorem b64Char_ne_pad : ∀ k, k < 64 → b64Char k ≠ '=' := by decide

/-- Base64 decoding inverts base64 encoding on byte lists. -/
theorem b64_roundtrip (bs : List Nat) (hb : ∀ b ∈ bs, b < 256) :
    b64DecodeList (b64EncodeList bs) = .ok bs := by
  induction bs using b64EncodeList.induct with
  | case1 => rfl
  | case2 a =>
    have ha : a < 256 := hb a (by simp)
    have i1 := b64Index_b64Char (a / 4) (by omega)
    have i2 := b64Index_b64Char (a % 4 * 16) (by omega)
    simp [b64EncodeList, b64DecodeList, i1, i2]
    omega
  | case3 a b =>
    have ha : a < 256 := hb a (by simp)
    have hbb : b < 256 := hb b (by simp)
    have i1 := b64Index_b64Char (a / 4) (by omega)
    have i2 := b64Index_b64Char (a % 4 * 16 + b / 16) (by omega)
    have i3 := b64Index_b64Char (b % 16 * 4) (by omega)
    have n3 := b64Char_ne_pad (b % 16 * 4) (by omega)
    simp [b64EncodeList, b64DecodeList, i1, i2, i3, n3]
    omega
  | case4 a b c rest ih =>
    have ha : a < 256 := hb a (by simp)
    have hbb : b < 256 := hb b (by simp)
    have hc : c < 256 := hb c (by simp)
    have hrest : ∀ x ∈ rest, x < 256 := fun x hx => hb x (by simp [hx])
    have i1 := b64Index_b64Char (a / 4) (by omega)
    have i2 := b64Index_b64Char (a % 4 * 16 + b / 16) (by omega)
    have i3 := b64Index_b64Char (b % 16 * 4 + c / 64) (by omega)
    have i4 := b64Index_b64Char (c % 64) (by omega)
    have n3 := b64Char_ne_pad (b % 16 * 4 + c / 64) (by omega)
    have n4 := b64Char_ne_pad (c % 64) (by omega)
    simp [b64EncodeList, b64DecodeList, i1, i2, i3, i4, n3, n4, ih hrest]
    omega

/-- Stripping an exact leading sequence succeeds and returns the rest. -/
theorem dropPre_append (p s : List Char) : dropPre p (p ++ s) = some s := by
  induction p with
  | nil => rfl
  | cons c cs ih => simp [dropPre, ih]

/-- Every byte produced by `pngSerialize` is below 256. -/
theorem pngSerialize_lt_256 (img : RGBAImage) : ∀ b ∈ pngSerialize img, b < 256 := by
  intro b hbm
  simp only [pngSerialize, List.mem_append, List.mem_flatMap, List.mem_cons] at hbm
  rcases hbm with h | ⟨row, _, p, _, h⟩ <;>
    simp at h <;>
    rcases h with h | h | h | h <;> omega

theorem listSet_length (x : α) (n : Nat) (l : List α) : (listSet x n l).length = l.length := by
  induction l generalizing n with
  | nil => cases n <;> rfl
  | cons a rest ih => cases n <;> simp [listSet, ih]

theorem listModify_length (f : α → α) (n : Nat) (l : List α) :
    (listModify f n l).length = l.length := by
  induction l generalizing n with
  | nil => cases n <;> rfl
  | cons a rest ih => cases n <;> simp [listModify, ih]

theorem getD_listSet_eq (x : α) (n : Nat) (l : List α) (d : α) (h : n < l.length) :
    (listSet x n l).getD n d = x := by
  induction l generalizing n with
  | nil => simp at h
  | cons a rest ih =>
    cases n with
    | zero => rfl
    | succ m => simp only [listSet, List.getD_cons_succ]; exact ih m (by simpa using h)

theorem getD_listSet_ne (x : α) (n m : Nat) (l : List α) (d : α) (h : m ≠ n) :
    (listSet x n l).getD m d = l.getD m d := by
  induction l generalizing n m with
  | nil => cases n <;> rfl
  | cons a rest ih =>
    cases n with
    | zero => cases m with
      | zero => omega
      | succ k => rfl
    | succ n2 => cases m with
      | zero => rfl
      | succ k => simp only [listSet, List.getD_cons_succ]; exact ih n2 k (by omega)

theorem getD_listModify_eq (f : α → α) (n : Nat) (l : List α) (d : α) (h : n < l.length) :
    (listModify f n l).getD n d = f (l.getD n d) := by
  induction l generalizing n with
  | nil => simp at h
  | cons a rest ih =>
    cases n with
    | zero => rfl
    | succ m => simp only [listModify, List.getD_cons_succ]; exact ih m (by simpa using h)

theorem getD_listModify_ne (f : α → α) (n m : Nat) (l : List α) (d : α) (h : m ≠ n) :
    (listModify f n l).getD m d = l.getD m d := by
  induction l generalizing n m with
  | nil => cases n <;> rfl
  | cons a rest ih =>
    cases n with
    | zero => cases m with
      | zero => omega
      | succ k => rfl
    | succ n2 => cases m with
      | zero => rfl
      | succ k => simp only [listModify, List.getD_cons_succ]; exact ih n2 k (by omega)

theorem mem_listModify (f : α → α) (n : Nat) (l : List α) (P : α → Prop)
    (hl : ∀ a ∈ l, P a) (hf : ∀ a, P a → P (f a)) : ∀ a ∈ listModify f n l, P a := by
  induction l generalizing n with
  | nil => intro a ha; cases n <;> simp [listModify] at ha
  | cons b rest ih =>
    intro a ha
    cases n with
    | zero =>
      rcases (by simpa [listModify] using ha : a = f b ∨ a ∈ rest) with h | h
      · exact h ▸ hf b (hl b (by simp))
      · exact hl a (by simp [h])
    | succ m =>
      rcases (by simpa [listModify] using ha : a = b ∨ a ∈ listModify f m rest) with h | h
      · exact h ▸ hl b (by simp)
      · exact ih m (fun a2 ha2 => hl a2 (by simp [ha2])) a h

/-- Shape invariant of the pixel buffer: `height` rows of `width` pixels. -/
def imgWF (img : RGBAImage) : Prop :=
  img.rows.length = img.height ∧ ∀ row ∈ img.rows, row.length = img.width

theorem imgSet_width (img : RGBAImage) (x y : Nat) (c : RGBA) :
    (imgSet img x y c).width = img.width := by
  unfold imgSet; split <;> rfl

theorem imgSet_height (img : RGBAImage) (x y : Nat) (c : RGBA) :
    (imgSet img x y c).height = img.height := by
  unfold imgSet; split <;> rfl

theorem imgSet_wf (img : RGBAImage) (x y : Nat) (c : RGBA) (h : imgWF img) :
    imgWF (imgSet img x y c) := by
  unfold imgSet
  split
  · refine ⟨by simpa [listModify_length] using h.1, ?_⟩
    exact mem_listModify _ _ _ _ h.2 (fun row hr => by simpa [listSet_length] using hr)
  · exact h

theorem imgPix_imgSet (img : RGBAImage) (x y x' y' : Nat) (c : RGBA) (hwf : imgWF img) :
    imgPix (imgSet img x y c) x' y' =
      if x' = x ∧ y' = y ∧ x < img.width ∧ y < img.height then c else imgPix img x' y' := by
  obtain ⟨hwf1, hwf2⟩ := hwf
  unfold imgSet imgPix
  by_cases hb : x < img.width ∧ y < img.height
  · simp only [if_pos hb]
    by_cases hy : y' = y
    · subst hy
      have hylen : y' < img.rows.length := by omega
      rw [getD_listModify_eq _ _ _ _ hylen]
      by_cases hx : x' = x
      · subst hx
        have hmem : img.rows.getD y' [] ∈ img.rows := by
          rw [List.getD_eq_getElem _ _ hylen]
          exact List.getElem_mem _
        have hrow : (img.rows.getD y' []).length = img.width := hwf2 _ hmem
        rw [getD_listSet_eq _ _ _ _ (by omega)]
        simp [hb.1, hb.2]
      · rw [getD_listSet_ne _ _ _ _ _ hx]
        simp [hx]
    · rw [getD_listModify_ne _ _ _ _ _ hy]
      simp [hy]
  · simp only [if_neg hb]
    have hcond : ¬(x' = x ∧ y' = y ∧ x < img.width ∧ y < img.height) := by tauto
    simp [hcond]

theorem foldSet_width (l : List Nat) (img : RGBAImage) (y : Nat) :
    (l.foldl (fun a x => imgSet a x y rgbaWhite) img).width = img.width := by
  induction l generalizing img with
  | nil => rfl
  | cons a rest ih => simp [ih, imgSet_width]

theorem foldSet_height (l : List Nat) (img : RGBAImage) (y : Nat) :
    (l.foldl (fun a x => imgSet a x y rgbaWhite) img).height = img.height := by
  induction l generalizing img with
  | nil => rfl
  | cons a rest ih => simp [ih, imgSet_height]

theorem foldSet_wf (l : List Nat) (img : RGBAImage) (y : Nat) (h : imgWF img) :
    imgWF (l.foldl (fun a x => imgSet a x y rgbaWhite) img) := by
  induction l generalizing img with
  | nil => exact h
  | cons a rest ih => exact ih _ (imgSet_wf _ _ _ _ h)

theorem innerFold_pix (n : Nat) (img : RGBAImage) (y x' y' : Nat) (hwf : imgWF img) :
    imgPix ((List.range n).foldl (fun a x => imgSet a x y rgbaWhite) img) x' y' =
      if x' < n ∧ y' = y ∧ x' < img.width ∧ y < img.height then rgbaWhite
      else imgPix img x' y' := by
  induction n with
  | zero => simp
  | succ m ih =>
    rw [List.range_succ, List.foldl_append]
    simp only [List.foldl_cons, List.foldl_nil]
    rw [imgPix_imgSet _ _ _ _ _ _ (foldSet_wf _ _ _ hwf), ih]
    rw [foldSet_width, foldSet_height]
    split_ifs <;> first | rfl | omega

theorem outerFold_width (l : List Nat) (w : Nat) (img : RGBAImage) :
    (l.foldl (fun acc y => (List.range w).foldl (fun a x => imgSet a x y rgbaWhite) acc) img).width
      = img.width := by
  induction l generalizing img with
  | nil => rfl
  | cons a rest ih => simp [ih, foldSet_width]

theorem outerFold_height (l : List Nat) (w : Nat) (img : RGBAImage) :
    (l.foldl (fun acc y => (List.range w).foldl (fun a x => imgSet a x y rgbaWhite) acc) img).height
      = img.height := by
  induction l generalizing img with
  | nil => rfl
  | cons a rest ih => simp [ih, foldSet_height]

theorem outerFold_wf (l : List Nat) (w : Nat) (img : RGBAImage) (h : imgWF img) :
    imgWF (l.foldl (fun acc y => (List.range w).foldl (fun a x => imgSet a x y rgbaWhite) acc) img) := by
  induction l generalizing img with
  | nil => exact h
  | cons a rest ih => exact ih _ (foldSet_wf _ _ _ h)

theorem outerFold_pix (m w : Nat) (img : RGBAImage) (x' y' : Nat) (hwf : imgWF img) :
    imgPix ((List.range m).foldl
        (fun acc y => (List.range w).foldl (fun a x => imgSet a x y rgbaWhite) acc) img) x' y' =
      if x' < w ∧ y' < m ∧ x' < img.width ∧ y' < img.height then rgbaWhite
      else imgPix img x' y' := by
  induction m with
  | zero => simp
  | succ k ih =>
    rw [List.range_succ, List.foldl_append]
    simp only [List.foldl_cons, List.foldl_nil]
    rw [innerFold_pix _ _ _ _ _ (outerFold_wf _ _ _ hwf), ih]
    rw [outerFold_width, outerFold_height]
    split_ifs <;> first | rfl | omega

theorem newRGBA_wf (w h : Int) : imgWF (newRGBA w h) := by
  constructor
  · simp [newRGBA]
  · intro row hr
    simp only [newRGBA] at hr
    rw [List.eq_of_mem_replicate hr]
    simp [newRGBA]

theorem createWhitePNGImage_width (w h : Int) : (createWhitePNGImage w h).width = w.natAbs := by
  unfold createWhitePNGImage
  rw [outerFold_width]
  rfl

theorem createWhitePNGImage_height (w h : Int) : (createWhitePNGImage w h).height = h.natAbs := by
  unfold createWhitePNGImage
  rw [outerFold_height]
  rfl

theorem createWhitePNGImage_pix (w h : Int) (x y : Nat) (hx : x < w.toNat) (hy : y < h.toNat) :
    imgPix (createWhitePNGImage w h) x y = rgbaWhite := by
  unfold createWhitePNGImage
  rw [outerFold_pix _ _ _ _ _ (newRGBA_wf w h)]
  have hw2 : x < (newRGBA w h).width := by
    show x < w.natAbs
    omega
  have hh2 : y < (newRGBA w h).height := by
    show y < h.natAbs
    omega
  rw [if_pos ⟨hx, hy, hw2, hh2⟩]

/-- Events that the overlay loop itself can emit. -/
def isLoopEvent : Event → Bool
  | .log _ => true
  | .tempFile _ _ => true
  | .wmCall _ => true
  | _ => false

theorem rectPass_loopEvents (env : Env) (i : Nat) (ov : OverlayRectText) (pdf : String) :
    ∀ e ∈ (rectPass env i ov pdf).1, isLoopEvent e = true := by
  unfold rectPass
  split
  · split
    · simp
    · split
      · simp
      · split
        · intro e he; simp at he; subst he; rfl
        · split <;> (intro e he; rcases List.mem_cons.mp he with h | h) <;>
            first
            | (subst h; rfl)
            | (simp at h; subst h; rfl)
  · simp

theorem textPass_loopEvents (env : Env) (i : Nat) (ov : OverlayRectText) (pdf : String) :
    ∀ e ∈ (textPass env i ov pdf).1, isLoopEvent e = true := by
  unfold textPass
  split
  · simp
  · split <;> (intro e he; simp at he; subst he; rfl)

theorem processOverlay_loopEvents (env : Env) (i : Nat) (ov : OverlayRectText) (pdf : String) :
    ∀ e ∈ (processOverlay env i ov pdf).1, isLoopEvent e = true := by
  unfold processOverlay
  split
  · rename_i evs1 m heq
    intro e he
    rcases List.mem_cons.mp he with h | h
    · subst h; rfl
    · have := rectPass_loopEvents env i ov pdf
      rw [heq] at this
      exact this e h
  · rename_i evs1 pdf1 heq
    split
    rename_i evs2 r2 heq2
    intro e he
    rcases List.mem_cons.mp he with h | h
    · subst h; rfl
    · rcases List.mem_append.mp h with h2 | h2
      · have := rectPass_loopEvents env i ov pdf
        rw [heq] at this
        exact this e h2
      · have := textPass_loopEvents env i ov pdf1
        rw [heq2] at this
        exact this e h2

theorem runLoop_loopEvents (env : Env) (ovs : List OverlayRectText) (i : Nat) (pdf : String) :
    ∀ e ∈ (runLoop env ovs i pdf).1, isLoopEvent e = true := by
  induction ovs generalizing i pdf with
  | nil => simp [runLoop]
  | cons ov rest ih =>
    unfold runLoop
    split
    · rename_i evs m heq
      intro e he
      have := processOverlay_loopEvents env i ov pdf
      rw [heq] at this
      exact this e he
    · rename_i evs pdf2 heq
      split
      rename_i evs2 r2 heq2
      intro e he
      rcases List.mem_append.mp he with h | h
      · have := processOverlay_loopEvents env i ov pdf
        rw [heq] at this
        exact this e h
      · have := ih (i + 1) pdf2
        rw [heq2] at this
        exact this e h

theorem isLoopEvent_not_write (e : Event) (h : isLoopEvent e = true) : isWriteEvent e = false := by
  cases e <;> simp_all [isLoopEvent, isWriteEvent]

theorem runLoop_filter_write (env : Env) (ovs : List OverlayRectText) (i : Nat) (pdf : String) :
    (runLoop env ovs i pdf).1.filter isWriteEvent = [] := by
  rw [List.filter_eq_nil_iff]
  intro e he
  simp [isLoopEvent_not_write e (runLoop_loopEvents env ovs i pdf e he)]

theorem runMain_atomic (env : Env) (fl : Flags) :
    ((runMain env fl).1 = .ok ∧ ((runMain env fl).2.filter isWriteEvent).length = 1) ∨
    ((runMain env fl).1 ≠ .ok ∧ ((runMain env fl).2.filter isWriteEvent).length = 0) := by
  unfold runMain
  by_cases hfl : fl.jsonPath = "" ∨ fl.pdfPath = ""
  · rw [if_pos hfl]
    right
    exact ⟨by simp, by simp [isWriteEvent]⟩
  · rw [if_neg hfl]
    cases hJ : env.readFile fl.jsonPath with
    | error e => right; exact ⟨by simp, by simp [isWriteEvent]⟩
    | ok jsonData =>
      dsimp only
      cases hP : parseOverlays jsonData with
      | error e => right; exact ⟨by simp, by simp [isWriteEvent]⟩
      | ok overlays =>
        dsimp only
        cases hR : env.readFile fl.pdfPath with
        | error e => right; exact ⟨by simp, by simp [isWriteEvent]⟩
        | ok pdf0 =>
          dsimp only
          have hf := runLoop_filter_write env overlays 0 pdf0
          cases hL : runLoop env overlays 0 pdf0 with
          | mk evs r =>
            rw [hL] at hf
            cases r with
            | error m =>
              right
              exact ⟨by simp, by simp [List.filter_cons, isWriteEvent, hf]⟩
            | ok pdfF =>
              dsimp only
              cases hW : env.writeFile fl.outPath pdfF with
              | error e =>
                right
                exact ⟨by simp, by simp [List.filter_cons, isWriteEvent, hf]⟩
              | ok u =>
                left
                refine ⟨by simp, ?_⟩
                simp [List.filter_cons, List.filter_append, isWriteEvent, hf]

/-- The PNG bytes of the raster stamp an overlay requests. -/
def overlayPngBytes (ov : OverlayRectText) : List Nat :=
  pngSerialize (createWhitePNGImage (goInt ov.width) (goInt ov.height))

/-- The watermark calls one overlay contributes on the success path:
the backing rectangle (when requested) followed by the text. -/
def overlayCalls (tmp : List Nat → String) (ov : OverlayRectText) : List WMCall :=
  (if 0 < ov.width ∧ 0 < ov.height then
    [WMCall.rect (tmp (overlayPngBytes ov)) (rectParams ov)]
   else []) ++ [WMCall.text ov.text (textParams ov)]

/-- An environment in which every external step succeeds: `tmp` names the
temp file stored for given bytes, `app` is the watermark transformation. -/
def EnvOk (env : Env) (tmp : List Nat → String) (app : WMCall → String → String) : Prop :=
  (∀ bs, env.tempStore bs = .ok (tmp bs)) ∧
  (∀ p ps, env.parseImageWM p ps = .ok ()) ∧
  (∀ t ps, env.parseTextWM t ps = .ok ()) ∧
  (∀ c p, env.applyWM c p = .ok (app c p))

theorem createWhitePNG_ok (w h : Int) (hw : 1 ≤ w) (hh : 1 ≤ h) :
    createWhitePNG w h =
      .ok (pngDataURIPre ++ base64Encode (pngSerialize (createWhitePNGImage w h))) := by
  unfold createWhitePNG pngEncode
  rw [if_neg]
  rw [createWhitePNGImage_width, createWhitePNGImage_height]
  omega

theorem dataURIDecode_encode (bs : List Nat) (hb : ∀ b ∈ bs, b < 256) :
    dataURIDecode (pngDataURIPre ++ base64Encode bs) = .ok bs := by
  unfold dataURIDecode
  have hdata : (pngDataURIPre ++ base64Encode bs).data = pngDataURIPre.data ++ b64EncodeList bs := by
    rw [String.data_append]; rfl
  rw [hdata, dropPre_append]
  simp [b64_roundtrip bs hb]

theorem saveDataURI_ok (env : Env) (tmp : List Nat → String) (app : WMCall → String → String)
    (hok : EnvOk env tmp app) (bs : List Nat) (hb : ∀ b ∈ bs, b < 256) :
    saveDataURIToTempFile env (pngDataURIPre ++ base64Encode bs) = .ok (tmp bs, bs) := by
  unfold saveDataURIToTempFile
  rw [dataURIDecode_encode bs hb]
  simp [hok.1 bs]

/-- The events one overlay contributes on the success path. -/
def overlayEvents (tmp : List Nat → String) (i : Nat) (ov : OverlayRectText) : List Event :=
  Event.log (progressLine i ov) ::
    ((if 0 < ov.width ∧ 0 < ov.height then
        [Event.tempFile (tmp (overlayPngBytes ov)) (overlayPngBytes ov),
         Event.wmCall (.rect (tmp (overlayPngBytes ov)) (rectParams ov))]
      else []) ++
      [Event.wmCall (.text ov.text (textParams ov))])

/-- The PDF buffer after one overlay on the success path. -/
def overlayApply (tmp : List Nat → String) (app : WMCall → String → String)
    (ov : OverlayRectText) (pdf : String) : String :=
  app (.text ov.text (textParams ov))
    (if 0 < ov.width ∧ 0 < ov.height then
      app (.rect (tmp (overlayPngBytes ov)) (rectParams ov)) pdf
     else pdf)

/-- The events of the whole loop on the success path. -/
def loopEvents (tmp : List Nat → String) (app : WMCall → String → String) :
    List OverlayRectText → Nat → String → List Event
  | [], _, _ => []
  | ov :: rest, i, pdf =>
    overlayEvents tmp i ov ++ loopEvents tmp app rest (i + 1) (overlayApply tmp app ov pdf)

/-- The final PDF buffer of the whole loop on the success path. -/
def loopFinal (tmp : List Nat → String) (app : WMCall → String → String) :
    List OverlayRectText → String → String
  | [], pdf => pdf
  | ov :: rest, pdf => loopFinal tmp app rest (overlayApply tmp app ov pdf)

theorem processOverlay_ok (env : Env) (tmp : List Nat → String) (app : WMCall → String → String)
    (hok : EnvOk env tmp app) (i : Nat) (ov : OverlayRectText) (pdf : String)
    (hdim : 0 < ov.width → 0 < ov.height → 1 ≤ goInt ov.width ∧ 1 ≤ goInt ov.height) :
    processOverlay env i ov pdf = (overlayEvents tmp i ov, .ok (overlayApply tmp app ov pdf)) := by
  unfold processOverlay rectPass textPass overlayEvents overlayApply
  by_cases hwh : 0 < ov.width ∧ 0 < ov.height
  · rw [if_pos hwh, if_pos hwh, if_pos hwh]
    have h1 := createWhitePNG_ok (goInt ov.width) (goInt ov.height)
      (hdim hwh.1 hwh.2).1 (hdim hwh.1 hwh.2).2
    rw [h1]
    have h2 := saveDataURI_ok env tmp app hok (overlayPngBytes ov)
      (pngSerialize_lt_256 _)
    simp only [overlayPngBytes] at h2
    simp [h2, hok.1, hok.2.1, hok.2.2.1, hok.2.2.2, overlayPngBytes]
  · rw [if_neg hwh, if_neg hwh, if_neg hwh]
    simp [hok.2.2.1, hok.2.2.2]

theorem runLoop_ok (env : Env) (tmp : List Nat → String) (app : WMCall → String → String)
    (hok : EnvOk env tmp app) (ovs : List OverlayRectText)
    (hdims : ∀ ov ∈ ovs, 0 < ov.width → 0 < ov.height →
      1 ≤ goInt ov.width ∧ 1 ≤ goInt ov.height)
    (i : Nat) (pdf : String) :
    runLoop env ovs i pdf =
      (loopEvents tmp app ovs i pdf, .ok (loopFinal tmp app ovs pdf)) := by
  induction ovs generalizing i pdf with
  | nil => rfl
  | cons ov rest ih =>
    unfold runLoop
    rw [processOverlay_ok env tmp app hok i ov pdf (hdims ov (by simp))]
    dsimp only
    rw [ih (fun o ho => hdims o (by simp [ho])) (i + 1) (overlayApply tmp app ov pdf)]
    rfl

theorem wmCalls_append (a b : List Event) : wmCalls (a ++ b) = wmCalls a ++ wmCalls b :=
  List.filterMap_append a b _

theorem wmCalls_overlayEvents (tmp : List Nat → String) (i : Nat) (ov : OverlayRectText) :
    wmCalls (overlayEvents tmp i ov) = overlayCalls tmp ov := by
  unfold overlayEvents overlayCalls
  by_cases hwh : 0 < ov.width ∧ 0 < ov.height
  · rw [if_pos hwh, if_pos hwh]
    simp [wmCalls]
  · rw [if_neg hwh, if_neg hwh]
    simp [wmCalls]

theorem wmCalls_loopEvents (tmp : List Nat → String) (app : WMCall → String → String)
    (ovs : List OverlayRectText) (i : Nat) (pdf : String) :
    wmCalls (loopEvents tmp app ovs i pdf) = ovs.flatMap (overlayCalls tmp) := by
  induction ovs generalizing i pdf with
  | nil => rfl
  | cons ov rest ih =>
    unfold loopEvents
    rw [wmCalls_append, wmCalls_overlayEvents, ih]
    rfl

theorem runMain_ok (env : Env) (tmp : List Nat → String) (app : WMCall → String → String)
    (hok : EnvOk env tmp app) (fl : Flags) (jsonData : String)
    (overlays : List OverlayRectText) (pdf0 : String)
    (hfl1 : fl.jsonPath ≠ "") (hfl2 : fl.pdfPath ≠ "")
    (hJ : env.readFile fl.jsonPath = .ok jsonData)
    (hP : parseOverlays jsonData = .ok overlays)
    (hR : env.readFile fl.pdfPath = .ok pdf0)
    (hW : env.writeFile fl.outPath (loopFinal tmp app overlays pdf0) = .ok ())
    (hdims : ∀ ov ∈ overlays, 0 < ov.width → 0 < ov.height →
      1 ≤ goInt ov.width ∧ 1 ≤ goInt ov.height) :
    runMain env fl =
      (.ok, Event.readFile fl.jsonPath :: Event.readFile fl.pdfPath ::
        loopEvents tmp app overlays 0 pdf0 ++
        [Event.writeFile fl.outPath (loopFinal tmp app overlays pdf0),
         Event.stdout (doneMsg fl.outPath)]) := by
  unfold runMain
  rw [if_neg (by simp [hfl1, hfl2]), hJ]
  dsimp only
  rw [hP]
  dsimp only
  rw [hR]
  dsimp only
  rw [runLoop_ok env tmp app hok overlays hdims 0 pdf0]
  dsimp only
  rw [hW]

theorem digitChar_mem_digits :
    ∀ k, k < 10 → digitChar k ∈ ['0', '1', '2', '3', '4', '5', '6', '7', '8', '9'] := by decide

theorem natToStrAux_chars (fuel n : Nat) :
    ∀ c ∈ (natToStrAux fuel n).data, c ∈ ['0', '1', '2', '3', '4', '5', '6', '7', '8', '9'] := by
  induction fuel generalizing n with
  | zero => intro c hc; simp [natToStrAux] at hc
  | succ fuel ih =>
    intro c hc
    rw [natToStrAux] at hc
    by_cases h : n < 10
    · rw [if_pos h] at hc
      simp at hc
      subst hc
      exact digitChar_mem_digits n h
    · rw [if_neg h] at hc
      rw [String.data_append] at hc
      rcases List.mem_append.mp hc with h2 | h2
      · exact ih (n / 10) c h2
      · simp at h2
        subst h2
        exact digitChar_mem_digits (n % 10) (Nat.mod_lt _ (by omega))

theorem natToStr_chars (n : Nat) :
    ∀ c ∈ (natToStr n).data, c ∈ ['0', '1', '2', '3', '4', '5', '6', '7', '8', '9'] :=
  natToStrAux_chars (n + 1) n

theorem natToStr_no_comma (n : Nat) : ',' ∉ (natToStr n).data := by
  intro hc
  have := natToStr_chars n ',' hc
  simp at this

theorem padZeros_no_comma (d : Nat) (s : String) (hs : ',' ∉ s.data) :
    ',' ∉ (padZeros d s).data := by
  unfold padZeros
  split
  · rw [String.data_append]
    intro hc
    rcases List.mem_append.mp hc with h | h
    · simp [List.mem_replicate] at h
    · exact hs h
  · exact hs

theorem formatFixedPos_no_comma (d : Nat) (q : ℚ) : ',' ∉ (formatFixedPos d q).data := by
  unfold formatFixedPos
  rw [String.data_append, String.data_append]
  intro hc
  rcases List.mem_append.mp hc with h | h
  · rcases List.mem_append.mp h with h2 | h2
    · exact natToStr_no_comma _ h2
    · simp at h2
  · exact padZeros_no_comma _ _ (natToStr_no_comma _) h

theorem f6_no_comma (q : ℚ) : ',' ∉ (f6 q).data := by
  unfold f6 formatFixed
  split
  · rw [String.data_append]
    intro hc
    rcases List.mem_append.mp hc with h | h
    · simp at h
    · exact formatFixedPos_no_comma _ _ h
  · exact formatFixedPos_no_comma _ _

/-- Decidable equality for `Except` results (not provided by the library). -/
instance exceptDecEq {e : Type} {a : Type} [DecidableEq e] [DecidableEq a] :
    DecidableEq (Except e a) := fun x y =>
  match x, y with
  | .error u, .error v =>
    if h : u = v then .isTrue (by rw [h]) else .isFalse (by simp [h])
  | .ok u, .ok v =>
    if h : u = v then .isTrue (by rw [h]) else .isFalse (by simp [h])
  | .error _, .ok _ => .isFalse (by simp)
  | .ok _, .error _ => .isFalse (by simp)

/-! ### Concrete environments used by the closed instances -/

/-- An environment whose oracles all succeed: the overlay JSON lives at
`overlays.json`, the source PDF at `in.pdf`; watermarking appends `+wm` to
the buffer; temp files land at a fixed path. -/
def okEnv (jsonText pdfText : String) : Env where
  readFile := fun p =>
    if p = "overlays.json" then .ok jsonText
    else if p = "in.pdf" then .ok pdfText
    else .error "no such file"
  tempStore := fun _ => .ok "/tmp/white_1.png"
  parseImageWM := fun _ _ => .ok ()
  parseTextWM := fun _ _ => .ok ()
  applyWM := fun _ pdf => .ok (pdf ++ "+wm")
  writeFile := fun _ _ => .ok ()

/-- The flag values used by the closed instances. -/
def stdFlags : Flags := ⟨"overlays.json", "in.pdf", "out.pdf"⟩

/-- The constant temp-path function of `okEnv`. -/
def tmpConst : List Nat → String := fun _ => "/tmp/white_1.png"

/-- The watermark transformation of `okEnv`. -/
def appWM : WMCall → String → String := fun _ pdf => pdf ++ "+wm"

theorem okEnv_envOk (j p : String) : EnvOk (okEnv j p) tmpConst appWM :=
  ⟨fun _ => rfl, fun _ _ => rfl, fun _ _ => rfl, fun _ _ => rfl⟩

/-- C2: for an overlay with x = 12.5, y = 7.0, scale = 2.0 the rectangle
parameter string contains exactly the substrings `offset:12.500000 7.000000`
and `scale:2.000000 abs`, and the text parameter string contains
`scale:0.500000` (the text scale is always `scale/4`); in general both
parameter strings are comma-separated `key:value` token lists with anchor
`pos:bl`, offset `(x, y)`, rotation `0`, `fillc:#000000` on the text string
only, and `mode:0`, and the formatted numeric values never contain a comma,
so the token decomposition is exact. -/
theorem claim_c2_param_strings :
    (List.IsInfix "offset:12.500000 7.000000".data
        (rectParams ⟨"t", 25 / 2, 7, 40, 20, 2⟩).data ∧
      List.IsInfix "scale:2.000000 abs".data (rectParams ⟨"t", 25 / 2, 7, 40, 20, 2⟩).data ∧
      List.IsInfix "scale:0.500000".data (textParams ⟨"t", 25 / 2, 7, 40, 20, 2⟩).data) ∧
    (∀ ov : OverlayRectText,
      (rectParams ov).data = List.intercalate ", ".data
        ["pos:bl".data, ("offset:" ++ f6 ov.x ++ " " ++ f6 ov.y).data,
          ("scale:" ++ f6 ov.scale ++ " abs").data, "rot:0".data, "mode:0".data] ∧
      (textParams ov).data = List.intercalate ", ".data
        ["pos:bl".data, ("offset:" ++ f6 ov.x ++ " " ++ f6 ov.y).data, "rot:0".data,
          ("scale:" ++ f6 (ov.scale / 4)).data, "fillc:#000000".data, "mode:0".data]) ∧
    (∀ q : ℚ, ',' ∉ (f6 q).data) := by
  refine ⟨⟨?_, ?_, ?_⟩, ?_, f6_no_comma⟩
  · decide
  · decide
  · decide
  · intro ov
    constructor <;>
      simp [rectParams, textParams, String.data_append, List.intercalate, List.intersperse,
        List.append_assoc]

/-- The 40×20 overlay of the C3 instance. -/
def ov40 : OverlayRectText := ⟨"hi", 0, 0, 40, 20, 1⟩

/-- Its JSON source. -/
def jsonC3 : String := "[\x7b\"text\":\"hi\",\"width\":40,\"height\":20,\"scale\":1\x7d]"

/-- C3: for every pair of positive integers width and height, the raster
stamp generator produces an image of exactly width × height pixels, every
pixel opaque white (RGBA 255,255,255,255), and returns the PNG data URI of
its encoding; in particular, for a single overlay with width = 40 and
height = 20 the 40×20 raster is written to the temp file before the text
watermark pass, and two watermark calls occur in rectangle-then-text order. -/
theorem claim_c3_white_raster :
    (∀ w h : Int, 0 < w → 0 < h →
      (createWhitePNGImage w h).width = w.toNat ∧
      (createWhitePNGImage w h).height = h.toNat ∧
      (∀ x, x < w.toNat → ∀ y, y < h.toNat → imgPix (createWhitePNGImage w h) x y = rgbaWhite) ∧
      createWhitePNG w h =
        .ok (pngDataURIPre ++ base64Encode (pngSerialize (createWhitePNGImage w h)))) ∧
    ((createWhitePNGImage (goInt ov40.width) (goInt ov40.height)).width = 40 ∧
      (createWhitePNGImage (goInt ov40.width) (goInt ov40.height)).height = 20 ∧
      runMain (okEnv jsonC3 "PDF") stdFlags =
        (.ok, [.readFile "overlays.json", .readFile "in.pdf",
          .log (progressLine 0 ov40),
          .tempFile "/tmp/white_1.png" (overlayPngBytes ov40),
          .wmCall (.rect "/tmp/white_1.png" (rectParams ov40)),
          .wmCall (.text "hi" (textParams ov40)),
          .writeFile "out.pdf" "PDF+wm+wm",
          .stdout (doneMsg "out.pdf")])) := by
  constructor
  · intro w h hw hh
    refine ⟨?_, ?_, ?_, createWhitePNG_ok w h (by omega) (by omega)⟩
    · rw [createWhitePNGImage_width]; omega
    · rw [createWhitePNGImage_height]; omega
    · intro x hx y hy
      exact createWhitePNGImage_pix w h x y hx hy
  · refine ⟨?_, ?_, ?_⟩
    · rw [createWhitePNGImage_width]; decide
    · rw [createWhitePNGImage_height]; decide
    · rw [runMain_ok (okEnv jsonC3 "PDF") tmpConst appWM (okEnv_envOk jsonC3 "PDF") stdFlags
        jsonC3 [ov40] "PDF" (by decide) (by decide) rfl (by decide) rfl rfl (by decide)]
      have hcond : 0 < ov40.width ∧ 0 < ov40.height := by decide
      simp only [loopEvents, overlayEvents, overlayApply, loopFinal, if_pos hcond, tmpConst,
        appWM, stdFlags]
      rfl

/-- C5: for an empty overlay list, the bytes written to the output file are
exactly the input PDF's bytes, and the event trace shows the watermark loop
contributed nothing: no watermark call, no temp file, no log line — the
driver is skipped entirely, not invoked with a no-op spec.  (`[]` parses to
the empty overlay list, witnessing that the hypothesis is realizable.) -/
theorem claim_c5_empty_identity :
    (∀ (env : Env) (fl : Flags) (jsonData pdf : String),
      fl.jsonPath ≠ "" → fl.pdfPath ≠ "" →
      env.readFile fl.jsonPath = .ok jsonData →
      parseOverlays jsonData = .ok [] →
      env.readFile fl.pdfPath = .ok pdf →
      env.writeFile fl.outPath pdf = .ok () →
      runMain env fl =
        (.ok, [.readFile fl.jsonPath, .readFile fl.pdfPath,
          .writeFile fl.outPath pdf, .stdout (doneMsg fl.outPath)])) ∧
    parseOverlays "[]" = .ok [] := by
  constructor
  · intro env fl jsonData pdf hfl1 hfl2 hJ hP hR hW
    unfold runMain
    rw [if_neg (by simp [hfl1, hfl2]), hJ]
    dsimp only
    rw [hP]
    dsimp only
    rw [hR]
    dsimp only
    rw [show runLoop env [] 0 pdf = ([], .ok pdf) from rfl]
    dsimp only
    rw [hW]
    rfl
  · decide

/-- Witness for C5 at a concrete environment: the output write carries the
input PDF bytes unchanged. -/
theorem claim_c5_empty_identity_witness :
    runMain (okEnv "[]" "PDF") stdFlags =
      (.ok, [.readFile "overlays.json", .readFile "in.pdf",
        .writeFile "out.pdf" "PDF", .stdout (doneMsg "out.pdf")]) :=
  claim_c5_empty_identity.1 (okEnv "[]" "PDF") stdFlags "[]" "PDF"
    (by decide) (by decide) rfl claim_c5_empty_identity.2 rfl rfl

/-- C6: if the `-json` or the `-pdf` flag is empty, the run prints the usage
line to standard output and exits with status 1, performing no file I/O of
any kind (no read, no temp file, no output write). -/
theorem claim_c6_usage_exit :
    ∀ (env : Env) (fl : Flags), fl.jsonPath = "" ∨ fl.pdfPath = "" →
      runMain env fl = (.usageExit, [.stdout usageLine]) ∧
      (runMain env fl).1.exitCode = 1 ∧
      ∀ e ∈ (runMain env fl).2, isFileEvent e = false := by
  intro env fl h
  have h1 : runMain env fl = (.usageExit, [.stdout usageLine]) := by
    unfold runMain
    rw [if_pos h]
  refine ⟨h1, ?_, ?_⟩
  · rw [h1]; rfl
  · rw [h1]
    intro e he
    simp at he
    subst he
    rfl

/-- Witness for C6: a run with an empty `-json` flag. -/
theorem claim_c6_usage_exit_witness :
    runMain (okEnv "[]" "PDF") ⟨"", "in.pdf", "out.pdf"⟩ =
      (.usageExit, [.stdout usageLine]) ∧
    (runMain (okEnv "[]" "PDF") ⟨"", "in.pdf", "out.pdf"⟩).1.exitCode = 1 ∧
    ∀ e ∈ (runMain (okEnv "[]" "PDF") ⟨"", "in.pdf", "out.pdf"⟩).2, isFileEvent e = false :=
  claim_c6_usage_exit (okEnv "[]" "PDF") ⟨"", "in.pdf", "out.pdf"⟩ (Or.inl rfl)

/-- C4: there is no partial-success mode: every run either ends in the
normal exit with exactly one (complete) output-file write event, or ends in
a usage exit or `log.Fatalf` with no output-file write event at all — every
failure at any pipeline step aborts before the output is written; in
particular the malformed JSON input `not json` produces a fatal JSON parse
error and no output file. -/
theorem claim_c4_no_partial_success :
    (∀ (env : Env) (fl : Flags),
      ((runMain env fl).1 = .ok ∧ ((runMain env fl).2.filter isWriteEvent).length = 1) ∨
      ((runMain env fl).1 ≠ .ok ∧ ((runMain env fl).2.filter isWriteEvent).length = 0)) ∧
    (runMain (okEnv "not json" "PDF") stdFlags).1 =
      .fatal (jsonParseFailMsg "invalid character in literal") ∧
    ((runMain (okEnv "not json" "PDF") stdFlags).2.filter isWriteEvent).length = 0 := by
  refine ⟨runMain_atomic, ?_, ?_⟩
  · decide
  · decide

/-- An environment whose file reads all fail (for the read-error instances). -/
def readFailEnv : Env :=
  { okEnv "" "" with readFile := fun _ => .error "no such file or directory" }

/-- C7: the overlay loader fails with a read error when the JSON path cannot
be opened, and with a parse error when the JSON is not an array (or `null`)
of overlay records; on success, unknown keys are ignored, missing numeric
fields default to zero and a missing text defaults to the empty string, and
negative numbers pass through without validation. -/
theorem claim_c7_loader :
    (∀ (env : Env) (fl : Flags) (e : String),
      fl.jsonPath ≠ "" → fl.pdfPath ≠ "" →
      env.readFile fl.jsonPath = .error e →
      runMain env fl = (.fatal (readJsonFailMsg e), [.readFile fl.jsonPath])) ∧
    (∀ q : ℚ, decodeOverlays (Json.num q) =
      .error "cannot unmarshal value into Go value of type []OverlayRectText") ∧
    (∀ s : String, decodeOverlays (Json.str s) =
      .error "cannot unmarshal value into Go value of type []OverlayRectText") ∧
    (∀ b : Bool, decodeOverlays (Json.bool b) =
      .error "cannot unmarshal value into Go value of type []OverlayRectText") ∧
    (∀ kvs, decodeOverlays (Json.obj kvs) =
      .error "cannot unmarshal value into Go value of type []OverlayRectText") ∧
    (∀ (ov : OverlayRectText) (k : String) (v : Json),
      lowerAscii k ∉ ["text", "x", "y", "width", "height", "scale"] →
      setField ov k v = .ok ov) ∧
    decodeOverlayRecord (Json.obj []) = .ok zeroOverlay ∧
    parseOverlays "[\x7b\"text\":\"a\"\x7d]" = .ok [⟨"a", 0, 0, 0, 0, 0⟩] ∧
    parseOverlays "[\x7b\"text\":\"a\",\"x\":1.5,\"extra\":true\x7d]" =
      .ok [⟨"a", 3 / 2, 0, 0, 0, 0⟩] ∧
    parseOverlays "[\x7b\"width\":-3\x7d]" = .ok [⟨"", 0, 0, -3, 0, 0⟩] := by
  refine ⟨?_, fun _ => rfl, fun _ => rfl, fun _ => rfl, fun _ => rfl, ?_, rfl,
    by decide, by decide, by decide⟩
  · intro env fl e hfl1 hfl2 hJ
    unfold runMain
    rw [if_neg (by simp [hfl1, hfl2]), hJ]
  · intro ov k v h
    simp only [List.mem_cons, List.mem_singleton, not_or] at h
    obtain ⟨h1, h2, h3, h4, h5, h6⟩ := h
    simp [setField, h1, h2, h3, h4, h5, h6]

/-- Witness for C7's read-error case at a concrete failing environment. -/
theorem claim_c7_loader_witness :
    runMain readFailEnv stdFlags =
      (.fatal (readJsonFailMsg "no such file or directory"), [.readFile "overlays.json"]) :=
  claim_c7_loader.1 readFailEnv stdFlags "no such file or directory"
    (by decide) (by decide) rfl

/-- C10: `saveDataURIToTempFile` always accepts `createWhitePNG` output — the
prefix check succeeds on any base64 PNG data URI built with the shared
prefix — and base64 decoding inverts the encoding exactly, so the bytes
written to the temp file equal the PNG-encoded bytes. -/
theorem claim_c10_data_uri_roundtrip :
    (∀ bs : List Nat, (∀ b ∈ bs, b < 256) →
      dataURIDecode (pngDataURIPre ++ base64Encode bs) = .ok bs) ∧
    (∀ (w h : Int) (uri : String), createWhitePNG w h = .ok uri →
      dataURIDecode uri = .ok (pngSerialize (createWhitePNGImage w h))) := by
  constructor
  · exact dataURIDecode_encode
  · intro w h uri hc
    unfold createWhitePNG at hc
    cases hpe : pngEncode (createWhitePNGImage w h) with
    | error e => rw [hpe] at hc; simp at hc
    | ok bytes =>
      rw [hpe] at hc
      simp at hc
      have hb : bytes = pngSerialize (createWhitePNGImage w h) := by
        unfold pngEncode at hpe
        split at hpe
        · simp at hpe
        · simpa using hpe.symm
      subst hc
      rw [hb]
      exact dataURIDecode_encode _ (pngSerialize_lt_256 _)

/-- Witness for C10: a concrete byte list and the concrete 2×2 white PNG. -/
theorem claim_c10_data_uri_roundtrip_witness :
    dataURIDecode (pngDataURIPre ++ base64Encode [137, 80, 78, 71]) = .ok [137, 80, 78, 71] ∧
    dataURIDecode (pngDataURIPre ++ base64Encode (pngSerialize (createWhitePNGImage 2 2))) =
      .ok (pngSerialize (createWhitePNGImage 2 2)) :=
  ⟨claim_c10_data_uri_roundtrip.1 [137, 80, 78, 71] (by decide),
    claim_c10_data_uri_roundtrip.2 2 2 _ (createWhitePNG_ok 2 2 (by decide) (by decide))⟩

/-- The sub-unit-width overlay of the C1/C9 counterexamples. -/
def ovHalf : OverlayRectText := ⟨"t", 0, 0, 1 / 2, 20, 1⟩

/-- Its JSON source. -/
def jsonHalf : String := "[\x7b\"text\":\"t\",\"width\":0.5,\"height\":20,\"scale\":1\x7d]"

/-- C1 counterexample: an overlay with positive width 0.5 and height 20
produces zero watermark calls, not two — truncation yields a zero pixel
width, PNG encoding rejects the zero-extent image, and the run aborts. -/
theorem claim_c1_counterexample :
    0 < ovHalf.width ∧ 0 < ovHalf.height ∧
    (runMain (okEnv jsonHalf "PDF") stdFlags).1 =
      .fatal (createPngFailMsg "png: invalid image size") ∧
    wmCalls (runMain (okEnv jsonHalf "PDF") stdFlags).2 = [] := by decide

/-- The JSON of a single text-only overlay (all fields defaulted). -/
def jsonTextOnly : String := "[\x7b\x7d]"

/-- C1 (amended): in array order, the driver attempts the backing-rectangle
pass iff width > 0 and height > 0 — otherwise the rectangle branch is a
no-op — and on the success path (every external step succeeding and each
requested rectangle having truncated dimensions at least 1) each overlay
contributes its rectangle call (when requested) followed by its text call;
a single overlay with width = height = 0 yields exactly one watermark call
(text, no raster temp file), and a single overlay with width = 40 and
height = 20 yields exactly two calls in rectangle-then-text order. -/
theorem claim_c1_amended :
    (∀ (env : Env) (i : Nat) (ov : OverlayRectText) (pdf : String),
      ¬(0 < ov.width ∧ 0 < ov.height) → rectPass env i ov pdf = ([], .ok pdf)) ∧
    (∀ (env : Env) (tmp : List Nat → String) (app : WMCall → String → String),
      EnvOk env tmp app →
      ∀ ovs : List OverlayRectText,
        (∀ ov ∈ ovs, 0 < ov.width → 0 < ov.height →
          1 ≤ goInt ov.width ∧ 1 ≤ goInt ov.height) →
        ∀ (i : Nat) (pdf : String),
          wmCalls (runLoop env ovs i pdf).1 = ovs.flatMap (overlayCalls tmp) ∧
          (runLoop env ovs i pdf).2 = .ok (loopFinal tmp app ovs pdf)) ∧
    wmCalls (runMain (okEnv jsonTextOnly "PDF") stdFlags).2 =
      [.text "" (textParams zeroOverlay)] ∧
    (∀ e ∈ (runMain (okEnv jsonTextOnly "PDF") stdFlags).2, isTempFileEvent e = false) ∧
    wmCalls (runMain (okEnv jsonC3 "PDF") stdFlags).2 =
      [.rect "/tmp/white_1.png" (rectParams ov40), .text "hi" (textParams ov40)] := by
  refine ⟨?_, ?_, by decide, by decide, ?_⟩
  · intro env i ov pdf h
    unfold rectPass
    rw [if_neg h]
  · intro env tmp app hok ovs hdims i pdf
    rw [runLoop_ok env tmp app hok ovs hdims i pdf]
    exact ⟨wmCalls_loopEvents tmp app ovs i pdf, rfl⟩
  · rw [runMain_ok (okEnv jsonC3 "PDF") tmpConst appWM (okEnv_envOk jsonC3 "PDF") stdFlags
      jsonC3 [ov40] "PDF" (by decide) (by decide) rfl (by decide) rfl rfl (by decide)]
    rfl

/-- Witness for the amended C1 at a concrete environment: the success-path
hypotheses hold of `okEnv`, and a two-overlay list (one text-only, one with
a 3×4 rectangle) produces text, rectangle, text calls in order. -/
theorem claim_c1_amended_witness :
    wmCalls (runLoop (okEnv "" "PDF") [zeroOverlay, ⟨"b", 1, 2, 3, 4, 1⟩] 0 "PDF").1 =
      [.text "" (textParams zeroOverlay),
        .rect "/tmp/white_1.png" (rectParams ⟨"b", 1, 2, 3, 4, 1⟩),
        .text "b" (textParams ⟨"b", 1, 2, 3, 4, 1⟩)] ∧
    (runLoop (okEnv "" "PDF") [zeroOverlay, ⟨"b", 1, 2, 3, 4, 1⟩] 0 "PDF").2 =
      .ok (loopFinal tmpConst appWM [zeroOverlay, ⟨"b", 1, 2, 3, 4, 1⟩] "PDF") := by
  have h := (claim_c1_amended.2.1 (okEnv "" "PDF") tmpConst appWM (okEnv_envOk "" "PDF")
    [zeroOverlay, ⟨"b", 1, 2, 3, 4, 1⟩] (by decide) 0 "PDF")
  exact ⟨by rw [h.1]; rfl, h.2⟩

/-- The 40.9-wide overlay of the C9 instance. -/
def ov409 : OverlayRectText := ⟨"t", 0, 0, 409 / 10, 20, 1⟩

/-- Its JSON source. -/
def json409 : String := "[\x7b\"text\":\"t\",\"width\":40.9,\"height\":20,\"scale\":1\x7d]"

/-- C9 counterexample: at width 0.5, height 20 no raster is generated at
all — the truncated width 0 makes PNG encoding fail and the run aborts with
a fatal error before any temp file exists, rather than yielding a 0×20
raster stamp. -/
theorem claim_c9_counterexample :
    createWhitePNG (goInt ovHalf.width) (goInt ovHalf.height) =
      .error "png: invalid image size" ∧
    (runMain (okEnv jsonHalf "PDF") stdFlags).1 =
      .fatal (createPngFailMsg "png: invalid image size") ∧
    ∀ e ∈ (runMain (okEnv jsonHalf "PDF") stdFlags).2, isTempFileEvent e = false := by decide

/-- C9 (amended): the rectangle pass truncates the float width and height
toward zero (for nonnegative values, truncation is the floor, dropping the
fractional part); width = 40.9 yields a 40-pixel-wide raster, and the run
succeeds; but for a requested rectangle with a dimension strictly below 1
the truncated size is 0, the in-memory image has zero extent (0×20), and PNG
encoding then rejects it, aborting the run with a fatal error instead of
stamping a zero-extent raster. -/
theorem claim_c9_amended :
    (∀ q : ℚ, 0 ≤ q → goInt q = ⌊q⌋ ∧ (goInt q : ℚ) ≤ q ∧ q < goInt q + 1) ∧
    goInt (409 / 10) = 40 ∧ goInt (1 / 2) = 0 ∧
    (createWhitePNGImage (goInt ov409.width) (goInt ov409.height)).width = 40 ∧
    runMain (okEnv json409 "PDF") stdFlags =
      (.ok, [.readFile "overlays.json", .readFile "in.pdf",
        .log (progressLine 0 ov409),
        .tempFile "/tmp/white_1.png" (overlayPngBytes ov409),
        .wmCall (.rect "/tmp/white_1.png" (rectParams ov409)),
        .wmCall (.text "t" (textParams ov409)),
        .writeFile "out.pdf" "PDF+wm+wm",
        .stdout (doneMsg "out.pdf")]) ∧
    0 < ovHalf.width ∧ 0 < ovHalf.height ∧
    (createWhitePNGImage (goInt ovHalf.width) (goInt ovHalf.height)).width = 0 ∧
    (createWhitePNGImage (goInt ovHalf.width) (goInt ovHalf.height)).height = 20 ∧
    (runMain (okEnv jsonHalf "PDF") stdFlags).1 =
      .fatal (createPngFailMsg "png: invalid image size") := by
  refine ⟨?_, by decide, by decide, ?_, ?_, by decide, by decide, ?_, ?_, by decide⟩
  · intro q hq
    have hg : goInt q = ⌊q⌋ := by
      unfold goInt
      rw [if_neg (not_lt.mpr hq)]
      rfl
    refine ⟨hg, ?_, ?_⟩
    · rw [hg]; exact Int.floor_le q
    · rw [hg]; exact Int.lt_floor_add_one q
  · rw [createWhitePNGImage_width]; decide
  · rw [runMain_ok (okEnv json409 "PDF") tmpConst appWM (okEnv_envOk json409 "PDF") stdFlags
      json409 [ov409] "PDF" (by decide) (by decide) rfl (by decide) rfl rfl (by decide)]
    have hcond : 0 < ov409.width ∧ 0 < ov409.height := by decide
    simp only [loopEvents, overlayEvents, overlayApply, loopFinal, if_pos hcond, tmpConst,
      appWM, stdFlags]
    rfl
  · rw [createWhitePNGImage_width]; decide
  · rw [createWhitePNGImage_height]; decide

/-- Witness for the amended C9's truncation characterization at 40.9. -/
theorem claim_c9_amended_witness :
    goInt (409 / 10) = ⌊(409 / 10 : ℚ)⌋ ∧ ((goInt (409 / 10) : ℚ)) ≤ 409 / 10 ∧
      (409 / 10 : ℚ) < goInt (409 / 10) + 1 :=
  claim_c9_amended.1 (409 / 10) (by decide)

/-- Two-overlay JSON whose rectangle-bearing overlay sits at index 1. -/
def json2Rect : String := "[\x7b\x7d,\x7b\"width\":2,\"height\":2\x7d]"

/-- One-overlay JSON whose rectangle-bearing overlay sits at index 0. -/
def json1Rect : String := "[\x7b\"width\":2,\"height\":2\x7d]"

/-- An otherwise fine environment whose temp-file store always fails. -/
def tempFailEnv (j : String) : Env :=
  { okEnv j "PDF" with tempStore := fun _ => .error "boom" }

/-- C8 counterexample: when temp-file persistence fails for the overlay at
index 1, the fatal diagnostic is exactly the same as when it fails at
index 0, and it does not contain the digit of the index — the message alone
cannot identify which overlay triggered the failure. -/
theorem claim_c8_counterexample :
    (runMain (tempFailEnv json2Rect) stdFlags).1 = .fatal (savePngFailMsg "boom") ∧
    (runMain (tempFailEnv json1Rect) stdFlags).1 = .fatal (savePngFailMsg "boom") ∧
    ¬List.IsInfix (natToStr 1).data (savePngFailMsg "boom").data := by decide

/-- C8 (amended): the fatal messages for watermark-parameter parsing and
watermark application do embed the overlay index, and every overlay's
processing is preceded by a progress log line embedding its index; but the
raster-creation and temp-file-save fatal messages mention no index at all
(they are index-independent message templates), so only the preceding
progress line identifies the overlay that triggered those two failures. -/
theorem claim_c8_amended :
    (∀ (i : Nat) (e : String), List.IsInfix (natToStr i).data (rectParseFailMsg i e).data) ∧
    (∀ (i : Nat) (e : String), List.IsInfix (natToStr i).data (rectApplyFailMsg i e).data) ∧
    (∀ (i : Nat) (e : String), List.IsInfix (natToStr i).data (textParseFailMsg i e).data) ∧
    (∀ (i : Nat) (e : String), List.IsInfix (natToStr i).data (textApplyFailMsg i e).data) ∧
    (∀ (i : Nat) (ov : OverlayRectText),
      List.IsInfix (natToStr i).data (progressLine i ov).data) ∧
    (∀ e : String, createPngFailMsg e = "Failed to create white PNG: " ++ e ++ "\n") ∧
    (∀ e : String, savePngFailMsg e = "Failed to save white PNG: " ++ e ++ "\n") ∧
    Event.log (progressLine 1 ⟨"", 0, 0, 2, 2, 0⟩) ∈
      (runMain (tempFailEnv json2Rect) stdFlags).2 := by
  refine ⟨?_, ?_, ?_, ?_, ?_, fun _ => rfl, fun _ => rfl, by decide⟩
  · intro i e
    exact ⟨"Failed to parse image watermark details for overlay ".data,
      (": " ++ e ++ "\n").data,
      by simp [rectParseFailMsg, String.data_append, List.append_assoc]⟩
  · intro i e
    exact ⟨"Failed adding white rectangle for overlay ".data, (": " ++ e ++ "\n").data,
      by simp [rectApplyFailMsg, String.data_append, List.append_assoc]⟩
  · intro i e
    exact ⟨"Error creating text watermark for overlay ".data, (": " ++ e ++ "\n").data,
      by simp [textParseFailMsg, String.data_append, List.append_assoc]⟩
  · intro i e
    exact ⟨"Failed adding text for overlay ".data, (": " ++ e ++ "\n").data,
      by simp [textApplyFailMsg, String.data_append, List.append_assoc]⟩
  · intro i ov
    exact ⟨"Processing overlay ".data,
      (": text=" ++ goQuote ov.text ++ " at (" ++ f2 ov.x ++ ", " ++ f2 ov.y ++ "), rect=" ++
        f2 ov.width ++ "x" ++ f2 ov.height ++ ", scale=" ++ f2 ov.scale ++ "\n").data,
      by simp [progressLine, String.data_append, List.append_assoc]⟩

/-- Witness for C3's generator contract at width 40, height 20. -/
theorem claim_c3_white_raster_witness :
    (createWhitePNGImage 40 20).width = (40 : Int).toNat ∧
    (createWhitePNGImage 40 20).height = (20 : Int).toNat ∧
    imgPix (createWhitePNGImage 40 20) 5 7 = rgbaWhite ∧
    createWhitePNG 40 20 =
      .ok (pngDataURIPre ++ base64Encode (pngSerialize (createWhitePNGImage 40 20))) := by
  have h := claim_c3_white_raster.1 40 20 (by decide) (by decide)
  exact ⟨h.1, h.2.1, h.2.2.1 5 (by decide) 7 (by decide), h.2.2.2⟩
